import Mathlib

/-!
Verification development for the umamidb change-capture batch-dispatch
pipeline (src/real-time-sync.js, Arkiv variant).  The JavaScript source is
shallowly embedded: JS values become an explicit `JVal` type, the mutable
`SyncQueue` object becomes an explicit state record driven by a step
function modelling the single-threaded event loop, and the fallible ledger
write becomes an `Except`-valued function parameterised by the external
client's response.
-/

namespace UmamiSync

/-- Model of the JavaScript values flowing through the pipeline: strings,
numbers, null, undefined, Date objects (carrying their ISO rendering), and
plain objects (as ordered key/value lists). -/
inductive JVal where
  | str : String → JVal
  | num : Int → JVal
  | null : JVal
  | undef : JVal
  | date : String → JVal
  | obj : List (String × JVal) → JVal

/-- JS truthiness test (`!value`): empty string, 0, null and undefined are
falsy; Date objects and plain objects are always truthy.  (Booleans and NaN
do not occur in this pipeline.) -/
def jsFalsy : JVal → Bool
  | .str s => s == ""
  | .num n => n == 0
  | .null => true
  | .undef => true
  | .date _ => false
  | .obj _ => false

/-- JS `String(value)` conversion, restricted to the values reaching it in
this pipeline (only `.str` values do in practice). -/
def jsString : JVal → String
  | .str s => s
  | .num n => toString n
  | .null => "null"
  | .undef => "undefined"
  | .date s => s
  | .obj _ => "[object Object]"

/-- JS `a || b` (fallback on falsy), as used for the metadata defaults in
the normalisers. -/
def jsOr (a b : JVal) : JVal :=
  if jsFalsy a then b else a

/-- An entry survives the skip check at the top of `toAttributes`
(`value === undefined || value === null` causes an early return; the keys
at every call site are string literals, so the corresponding key check is
always passed). -/
def kept : JVal → Bool
  | .null => false
  | .undef => false
  | _ => true

/-- One `{ key, value }` attribute object as built by `toAttributes`
(src/real-time-sync.js lines 64-80). -/
structure Attribute where
  key : String
  value : JVal

/-- `attributes.set(key, entry)` on a JS `Map` represented as an ordered
association list: an existing key keeps its position and gets the new
value; a fresh key is appended. -/
def mapSet (m : List Attribute) (k : String) (v : JVal) : List Attribute :=
  if m.any (fun a => a.key == k) then
    m.map (fun a => if a.key == k then ⟨k, v⟩ else a)
  else
    m ++ [⟨k, v⟩]

/-- The value stored by `toAttributes`: numbers are kept as numbers
(`typeof value === 'number'`), everything else is passed through
`String(value)`. -/
def convertVal : JVal → JVal
  | .num n => .num n
  | v => .str (jsString v)

/-- Processing of one `[key, value]` entry inside the `forEach` body of
`toAttributes`: skip null/undefined values, otherwise `Map.set` the
converted value. -/
def insertEntry (m : List Attribute) (e : String × JVal) : List Attribute :=
  if kept e.2 then mapSet m e.1 (convertVal e.2) else m

/-- `toAttributes(entries)` from src/real-time-sync.js lines 64-80: folds
the entries into a JS `Map` keyed by attribute key and returns
`Array.from(map.values())` (the insertion-ordered values). -/
def toAttributes (entries : List (String × JVal)) : List Attribute :=
  entries.foldl insertEntry []

/-- Lookup of an attribute value by key in a built attribute list. -/
def findAttr (attrs : List Attribute) (k : String) : Option JVal :=
  (attrs.find? (fun a => a.key == k)).map (fun a => a.value)

/-- External `Date` collaborator: the current wall-clock time rendered by
`new Date().toISOString()`, and the composite
`new Date(value)` / `Number.isNaN(date.getTime())` / `date.toISOString()`
parse-and-render step, which yields `none` exactly when the parsed date is
invalid (NaN time value). -/
structure DateEnv where
  nowIso : String
  parse : JVal → Option String

/-- `formatTimestamp(value)` from src/real-time-sync.js lines 82-93 (the
same function appears in src/unnamed/part_001 lines 107-118): falsy input
falls back to the current time, an unparseable input falls back to the
current time, otherwise the parsed instant is rendered with
`toISOString()`. -/
def formatTimestamp (env : DateEnv) (value : JVal) : String :=
  if jsFalsy value then env.nowIso
  else
    match env.parse value with
    | none => env.nowIso
    | some iso => iso

/-- Character-level check for the 24-character ECMAScript
`Date.prototype.toISOString` output shape YYYY-MM-DDTHH:MM:SS.mmmZ. -/
def isoMillisChars : List Char → Bool
  | [a, b, c, d, '-', e, f, '-', g, h, 'T', i, j, ':', k, l, ':', m, n,
     '.', o, p, q, 'Z'] =>
      [a, b, c, d, e, f, g, h, i, j, k, l, m, n, o, p, q].all Char.isDigit
  | _ => false

/-- The string has the millisecond ISO shape emitted by `toISOString`. -/
def isIsoMillis (s : String) : Bool :=
  isoMillisChars s.toList

/-- Character-level check for the 20-character ISO shape
YYYY-MM-DDTHH:MM:SSZ (no millisecond field). -/
def isoBasicChars : List Char → Bool
  | [a, b, c, d, '-', e, f, '-', g, h, 'T', i, j, ':', k, l, ':', m, n,
     'Z'] =>
      [a, b, c, d, e, f, g, h, i, j, k, l, m, n].all Char.isDigit
  | _ => false

/-- Concrete model of the ECMAScript Date parse-and-render step
(`new Date(value).toISOString()`), restricted to the ISO timestamp shapes
exercised in this development: a Date carries its rendering, a string
already in millisecond ISO form re-renders unchanged, a string in
second-precision ISO form gains the `.000` millisecond field (toISOString
always emits milliseconds), and anything else is treated as unparseable. -/
def jsParseIso : JVal → Option String
  | .date s => some s
  | .str s =>
      if isIsoMillis s then some s
      else if isoBasicChars s.toList then some (s.dropRight 1 ++ ".000Z")
      else none
  | _ => none

/-- A concrete Date environment using the ISO-restricted parse model. -/
def dateEnvEx : DateEnv :=
  { nowIso := "2024-06-01T12:00:00.000Z", parse := jsParseIso }

/-- Batch & queue configuration, src/real-time-sync.js lines 21-24. -/
def BATCH_SIZE : Nat := 10

/-- Flush delay in milliseconds (5 seconds). -/
def BATCH_TIMEOUT : Nat := 5000

/-- Retry attempt ceiling. -/
def MAX_RETRIES : Nat := 3

/-- Base retry delay in milliseconds (1 second). -/
def RETRY_DELAY : Nat := 1000

/-- The `data` object handed to `syncQueue.add` by the three normalisers
(the pipeline's SyncItem). -/
structure Item where
  type : JVal
  website_id : JVal
  umami_id : JVal
  timestamp : JVal
  data : JVal
  metadata : Option (List (String × JVal))

/-- A decoded `website_event` notification row (pageview or custom
event). -/
structure WebsiteEvent where
  event_id : JVal
  website_id : JVal
  session_id : JVal
  event_name : JVal
  url_path : JVal
  url_query : JVal
  referrer_path : JVal
  referrer_domain : JVal
  page_title : JVal
  hostname : JVal
  created_at : JVal

/-- A decoded `session` notification row. -/
structure SessionRow where
  session_id : JVal
  website_id : JVal
  browser : JVal
  os : JVal
  device : JVal
  screen : JVal
  language : JVal
  country : JVal
  region : JVal
  city : JVal
  created_at : JVal

/-- The SyncItem built by `syncPageview` (src/real-time-sync.js lines
237-264) before it is enqueued. -/
def syncPageviewItem (env : DateEnv) (ev : WebsiteEvent) : Item :=
  let createdAtIso := formatTimestamp env ev.created_at
  { type := .str "pageview"
  , website_id := ev.website_id
  , umami_id := ev.event_id
  , timestamp := .str createdAtIso
  , data := .obj
      [ ("event_id", ev.event_id)
      , ("website_id", ev.website_id)
      , ("session_id", ev.session_id)
      , ("url_path", ev.url_path)
      , ("url_query", ev.url_query)
      , ("referrer_path", ev.referrer_path)
      , ("referrer_domain", ev.referrer_domain)
      , ("page_title", ev.page_title)
      , ("hostname", ev.hostname)
      , ("created_at", .str createdAtIso) ]
  , metadata := some
      [ ("url_path", jsOr ev.url_path (.str ""))
      , ("hostname", jsOr ev.hostname (.str ""))
      , ("referrer_domain", jsOr ev.referrer_domain (.str "")) ] }

/-- The SyncItem built by `syncCustomEvent` (src/real-time-sync.js lines
266-290). -/
def syncCustomEventItem (env : DateEnv) (ev : WebsiteEvent) : Item :=
  let createdAtIso := formatTimestamp env ev.created_at
  { type := .str "event"
  , website_id := ev.website_id
  , umami_id := ev.event_id
  , timestamp := .str createdAtIso
  , data := .obj
      [ ("event_id", ev.event_id)
      , ("website_id", ev.website_id)
      , ("session_id", ev.session_id)
      , ("event_name", ev.event_name)
      , ("url_path", ev.url_path)
      , ("hostname", ev.hostname)
      , ("created_at", .str createdAtIso) ]
  , metadata := some
      [ ("event_name", jsOr ev.event_name (.str ""))
      , ("url_path", jsOr ev.url_path (.str ""))
      , ("hostname", jsOr ev.hostname (.str "")) ] }

/-- The SyncItem built by `syncSession` (src/real-time-sync.js lines
292-321). -/
def syncSessionItem (env : DateEnv) (s : SessionRow) : Item :=
  let createdAtIso := formatTimestamp env s.created_at
  { type := .str "session"
  , website_id := s.website_id
  , umami_id := s.session_id
  , timestamp := .str createdAtIso
  , data := .obj
      [ ("session_id", s.session_id)
      , ("website_id", s.website_id)
      , ("browser", s.browser)
      , ("os", s.os)
      , ("device", s.device)
      , ("screen", s.screen)
      , ("language", s.language)
      , ("country", s.country)
      , ("region", s.region)
      , ("city", s.city)
      , ("created_at", .str createdAtIso) ]
  , metadata := some
      [ ("country", jsOr s.country (.str "unknown"))
      , ("device", jsOr s.device (.str "unknown"))
      , ("browser", jsOr s.browser (.str "unknown"))
      , ("os", jsOr s.os (.str "unknown")) ] }

/-- `ExpirationTime.fromDays` is an opaque external SDK helper; the model
tracks only the day count passed to it. -/
def calculateBTL (days : Nat) : Nat := days

/-- One entity-create request as built inside `syncBatchToArkiv`
(src/real-time-sync.js lines 177-191).  `jsonToPayload(item.data)` is an
opaque external serialisation, modelled as the JSON value itself. -/
structure Create where
  payload : JVal
  contentType : String
  attributes : List Attribute
  expiresIn : Nat

/-- The per-item create construction from the `batch.map` body of
`syncBatchToArkiv`: the fixed attribute entries followed by the item's
metadata entries, deduplicated by `toAttributes`. -/
def buildCreate (env : DateEnv) (syncTime : Int) (batchLen : Nat)
    (item : Item) : Create :=
  { payload := item.data
  , contentType := "application/json"
  , attributes := toAttributes
      ([ ("type", item.type)
       , ("source", .str "umami")
       , ("website_id", item.website_id)
       , ("timestamp", .str (formatTimestamp env item.timestamp))
       , ("umami_id", item.umami_id)
       , ("sync_time", .num syncTime)
       , ("batch_size", .num batchLen) ] ++
       (match item.metadata with
        | some md => md
        | none => []))
  , expiresIn := calculateBTL 30 }

/-- Failure modes of a batch write: an error raised by the ledger client
call itself, or the explicit receipt-count mismatch thrown on lines
195-197 (expected count, received count). -/
inductive SyncError where
  | client : String → SyncError
  | receiptMismatch : Nat → Nat → SyncError

/-- `syncBatchToArkiv(batch)` from src/real-time-sync.js lines 173-200,
with the external `arkivClient.mutateEntities` call abstracted as the
`client` parameter (returning the `createdEntities` receipt list, here
receipt identifiers as naturals): builds one create per item, performs the
single write call, and throws when the acknowledged-entity count differs
from the submitted count. -/
def syncBatchToArkiv (env : DateEnv) (syncTime : Int)
    (client : List Create → Except SyncError (List Nat))
    (batch : List Item) : Except SyncError (List Nat) :=
  let creates := batch.map (buildCreate env syncTime batch.length)
  match client creates with
  | .error e => .error e
  | .ok createdEntities =>
      if createdEntities.length = creates.length then .ok createdEntities
      else .error (.receiptMismatch creates.length createdEntities.length)

/-- Where the single in-flight flush of a queue instance currently stands:
no flush in flight; awaiting the initial `syncBatchToArkiv` call made by
`processBatch`; inside `retryBatch` waiting out the exponential-backoff
delay before retry `n+1`; or awaiting the `syncBatchToArkiv` call of retry
`n+1`. -/
inductive Phase where
  | idle : Phase
  | syncing : List Item → Phase
  | backoff : List Item → Nat → Phase
  | retrySyncing : List Item → Nat → Phase

/-- Boolean test for the idle phase. -/
def Phase.isIdle : Phase → Bool
  | .idle => true
  | _ => false

/-- The mutable state of one `SyncQueue` instance together with the event
-loop bookkeeping needed to follow it: `queue`, `processing` and
`batchTimer` are the object's fields (`batchTimer` is the handle field
being non-null); `timerLive` records whether the scheduled batch-timer
callback is still going to fire (the field can in principle go stale,
since a fired callback only nulls the field once `processBatch` proceeds);
`followup` counts pending anonymous 100 ms `setTimeout` follow-up calls
scheduled at the end of `processBatch`; `phase` is the in-flight flush
continuation; `dispatched` records each batch handed to
`syncBatchToArkiv` by `processBatch`, and `dropped` each batch discarded
after retry exhaustion. -/
structure MState where
  queue : List Item
  processing : Bool
  batchTimer : Bool
  timerLive : Bool
  followup : Nat
  phase : Phase
  dispatched : List (List Item)
  dropped : List (List Item)

/-- A freshly constructed queue (constructor, lines 97-101). -/
def initState : MState :=
  { queue := []
  , processing := false
  , batchTimer := false
  , timerLive := false
  , followup := 0
  , phase := .idle
  , dispatched := []
  , dropped := [] }

/-- `clearBatchTimer()` (lines 118-123): cancels the scheduled callback
and nulls the handle field. -/
def clearBatchTimer (s : MState) : MState :=
  { s with batchTimer := false, timerLive := false }

/-- The synchronous prefix of `processBatch()` (lines 125-137): early
return when a flush is in flight or the queue is empty; otherwise set
`processing`, clear the batch timer, splice the first `BATCH_SIZE` items
off the queue and hand them to `syncBatchToArkiv` (recorded in
`dispatched`; the await suspends with the flush in phase `syncing`). -/
def procBatch (s : MState) : MState :=
  if s.processing || s.queue.isEmpty then s
  else
    let batch := s.queue.take BATCH_SIZE
    { s with processing := true
           , batchTimer := false
           , timerLive := false
           , queue := s.queue.drop BATCH_SIZE
           , phase := .syncing batch
           , dispatched := s.dispatched ++ [batch] }

/-- Lines 106-109 of `add`: start the batch timer if none is running and
no flush is processing. -/
def startTimer (s : MState) : MState :=
  if !s.batchTimer && !s.processing then
    { s with batchTimer := true, timerLive := true }
  else s

/-- Lines 111-115 of `add`: when the queue has reached `BATCH_SIZE`,
cancel the timer and call `processBatch` immediately. -/
def sizeCheck (s : MState) : MState :=
  if BATCH_SIZE ≤ s.queue.length then procBatch (clearBatchTimer s) else s

/-- `add(data)` (lines 103-116): push the item, then the timer start and
the batch-size check. -/
def addStep (s : MState) (i : Item) : MState :=
  sizeCheck (startTimer { s with queue := s.queue ++ [i] })

/-- The tail of `processBatch` after the try/catch resolves (lines
145-150): clear `processing`, and when items remain schedule another
`processBatch` via an anonymous 100 ms `setTimeout` (the `batchTimer`
field is not involved). -/
def finishFlush (s : MState) : MState :=
  { s with processing := false
         , phase := .idle
         , followup := if s.queue.isEmpty then s.followup else s.followup + 1 }

/-- Entry into `retryBatch(batch, n)` (lines 153-162): at or above the
attempt ceiling the batch is dropped and control returns to the tail of
`processBatch`; below it, the exponential-backoff delay starts. -/
def enterRetry (s : MState) (batch : List Item) (n : Nat) : MState :=
  if MAX_RETRIES ≤ n then
    finishFlush { s with dropped := s.dropped ++ [batch] }
  else
    { s with phase := .backoff batch n }

/-- The events the event loop can deliver to a queue instance: a call to
`add` from a normaliser, the batch timer firing, a pending 100 ms
follow-up firing, a direct `processBatch` call (as from the shutdown
handler), completion of an awaited `syncBatchToArkiv` call with success or
failure, and expiry of a retry backoff delay. -/
inductive Step where
  | add : Item → Step
  | timerFire : Step
  | followupFire : Step
  | callProcessBatch : Step
  | syncDone : Bool → Step
  | backoffDone : Step

/-- One run-to-completion event-loop step.  A fired timer consumes its
pending callback before `processBatch` runs; a sync completion resumes
either the try/catch of `processBatch` (phase `syncing`) or the try/catch
of `retryBatch` (phase `retrySyncing`), on failure re-entering
`retryBatch` with the same entire batch and the next retry count; other
events on states they do not apply to leave the state unchanged. -/
def step (s : MState) (e : Step) : MState :=
  match e with
  | .add i => addStep s i
  | .timerFire =>
      if s.timerLive then procBatch { s with timerLive := false } else s
  | .followupFire =>
      if 0 < s.followup then procBatch { s with followup := s.followup - 1 }
      else s
  | .callProcessBatch => procBatch s
  | .syncDone ok =>
      match s.phase with
      | .syncing batch =>
          if ok then finishFlush s else enterRetry s batch 0
      | .retrySyncing batch n =>
          if ok then finishFlush s else enterRetry s batch (n + 1)
      | _ => s
  | .backoffDone =>
      match s.phase with
      | .backoff batch n => { s with phase := .retrySyncing batch n }
      | _ => s

/-- Run a queue instance from a state through a sequence of event-loop
steps. -/
def run (s : MState) (steps : List Step) : MState :=
  steps.foldl step s

/-- The SIGINT handler's drain (src/real-time-sync.js lines 406-417):
when items remain in the queue, one final `processBatch` call before the
process exits. -/
def sigintFlush (s : MState) : MState :=
  if 0 < s.queue.length then procBatch s else s

/-- Number of flush callbacks currently scheduled for the instance: the
batch timer (if pending) plus the anonymous follow-up timeouts. -/
def scheduledFlushes (s : MState) : Nat :=
  (if s.timerLive then 1 else 0) + s.followup

/-- The retry chain of `retryBatch(batch, retryCount)` (lines 153-171)
with the write outcome of the retry at each count given by the oracle
`f`: returns the list of backoff delays actually waited (one per write
re-attempt, `RETRY_DELAY * 2 ^ retryCount` before the attempt at that
count) and whether the chain ended in success (`true`) or in the batch
being dropped (`false`). -/
def retryTrace (f : Nat → Bool) (retryCount : Nat) : List Nat × Bool :=
  if MAX_RETRIES ≤ retryCount then ([], false)
  else
    let delay := RETRY_DELAY * 2 ^ retryCount
    if f retryCount then ([delay], true)
    else
      let rest := retryTrace f (retryCount + 1)
      (delay :: rest.1, rest.2)
termination_by MAX_RETRIES - retryCount
decreasing_by simp [MAX_RETRIES] at *; omega

/-- A concrete item used to instantiate witnesses and counterexamples. -/
def itemA : Item :=
  { type := .str "pageview"
  , website_id := .str "w1"
  , umami_id := .str "1"
  , timestamp := .str "2024-01-01T00:00:00Z"
  , data := .null
  , metadata := none }

/-- The timer invariant exactly as the specification states it: the
scheduled-flush timer field is set if and only if the pending queue is
non-empty and no flush is in flight. -/
def timerInvariantClaim (s : MState) : Prop :=
  s.batchTimer = true ↔ (s.queue.length ≠ 0 ∧ s.processing = false)

/-- Event sequence reaching a state with pending items, no flush in
flight, and no batch timer set: one item is enqueued, the batch timer
fires and dispatches it, a second item arrives while the write is in
flight, and the write then succeeds. -/
def cexSteps1 : List Step :=
  [.add itemA, .timerFire, .add itemA, .syncDone true]

/-- Extending `cexSteps1` with one more enqueue: the 100 ms follow-up
flush is still pending, and the enqueue starts a batch timer besides. -/
def cexSteps2 : List Step :=
  cexSteps1 ++ [.add itemA]

/-- A queue instance observed while a flush is in flight. -/
def procState : MState := { initState with processing := true }

/-- An idle queue instance holding one pending item. -/
def queuedState : MState := { initState with queue := [itemA] }

/-- An idle queue instance holding three pending items. -/
def threeState : MState :=
  { initState with queue := [itemA, itemA, itemA] }

/-- An idle queue instance holding eleven pending items — one more than
`BATCH_SIZE`. -/
def elevenState : MState :=
  { initState with queue := List.replicate 11 itemA }

/-- A queue instance whose flush of `[itemA]` is awaiting the ledger
write. -/
def syncingState : MState :=
  { initState with processing := true, phase := .syncing [itemA] }

/-- A Date environment whose parse step accepts nothing, for exercising
the fallback path of `formatTimestamp`. -/
def envNoParse : DateEnv :=
  { nowIso := "2024-06-01T12:00:00.000Z", parse := fun _ => none }

/-- The pageview row of the specification's annotation-completeness
scenario: site S1, source record 42, occurred at
2024-01-01T00:00:00Z. -/
def evS1 : WebsiteEvent :=
  { event_id := .str "42"
  , website_id := .str "S1"
  , session_id := .null
  , event_name := .null
  , url_path := .null
  , url_query := .null
  , referrer_path := .null
  , referrer_domain := .null
  , page_title := .null
  , hostname := .null
  , created_at := .str "2024-01-01T00:00:00Z" }

/-- The entity carries the four mandatory annotations `type`, `source`,
`timestamp` and `sync_time`. -/
def hasMandatory (c : Create) : Prop :=
  (findAttr c.attributes "type").isSome ∧
  (findAttr c.attributes "source").isSome ∧
  (findAttr c.attributes "timestamp").isSome ∧
  (findAttr c.attributes "sync_time").isSome

/-- The structural invariant of a queue instance: the `batchTimer` handle
field agrees with the pending-callback flag, a set timer implies a
non-empty queue with no flush processing, and the `processing` flag holds
exactly while a flush (including its retry chain) is in flight. -/
def Inv (s : MState) : Prop :=
  s.batchTimer = s.timerLive ∧
  (s.batchTimer = true → s.queue.length ≠ 0 ∧ s.processing = false) ∧
  s.processing = !s.phase.isIdle

lemma inv_procBatch (s : MState) (h : Inv s) : Inv (procBatch s) := by
  obtain ⟨h1, h2, h3⟩ := h
  unfold procBatch
  split
  · exact ⟨h1, h2, h3⟩
  · exact ⟨rfl, by simp, rfl⟩

lemma inv_clearBatchTimer (s : MState) (h : Inv s) :
    Inv (clearBatchTimer s) := by
  obtain ⟨h1, h2, h3⟩ := h
  exact ⟨rfl, by simp [clearBatchTimer], h3⟩

lemma inv_sizeCheck (s : MState) (h : Inv s) : Inv (sizeCheck s) := by
  unfold sizeCheck
  split
  · exact inv_procBatch _ (inv_clearBatchTimer _ h)
  · exact h

lemma inv_startTimer (s : MState) (hq : s.queue.length ≠ 0) (h : Inv s) :
    Inv (startTimer s) := by
  obtain ⟨h1, h2, h3⟩ := h
  unfold startTimer
  by_cases hc : (!s.batchTimer && !s.processing) = true
  · rw [if_pos hc]
    simp only [Bool.and_eq_true, Bool.not_eq_true'] at hc
    exact ⟨rfl, fun _ => ⟨hq, hc.2⟩, h3⟩
  · rw [if_neg hc]
    exact ⟨h1, h2, h3⟩

lemma inv_addStep (s : MState) (i : Item) (h : Inv s) : Inv (addStep s i) := by
  obtain ⟨h1, h2, h3⟩ := h
  refine inv_sizeCheck _ (inv_startTimer _ (by simp) ?_)
  exact ⟨h1, fun hb => ⟨by simp [(h2 hb).1], (h2 hb).2⟩, h3⟩

lemma inv_finishFlush (s : MState) (hbt : s.batchTimer = false)
    (htl : s.timerLive = false) : Inv (finishFlush s) := by
  refine ⟨?_, ?_, ?_⟩
  · simp [finishFlush, hbt, htl]
  · simp [finishFlush, hbt]
  · simp [finishFlush, Phase.isIdle]

lemma inv_enterRetry (s : MState) (batch : List Item) (n : Nat)
    (hp : s.processing = true) (hbt : s.batchTimer = false)
    (htl : s.timerLive = false) : Inv (enterRetry s batch n) := by
  unfold enterRetry
  split
  · exact inv_finishFlush _ hbt htl
  · exact ⟨by simp [hbt, htl], by simp [hbt], by simp [hp, Phase.isIdle]⟩

lemma inv_step (s : MState) (e : Step) (h : Inv s) : Inv (step s e) := by
  obtain ⟨h1, h2, h3⟩ := h
  cases e with
  | add i => exact inv_addStep s i ⟨h1, h2, h3⟩
  | timerFire =>
      simp only [step]
      by_cases ht : s.timerLive = true
      · rw [if_pos ht]
        have hb : s.batchTimer = true := h1.trans ht
        obtain ⟨hq, hp⟩ := h2 hb
        unfold procBatch
        have hqe : s.queue.isEmpty = false := by
          simp [List.isEmpty_iff]
          exact fun hnil => hq (by simp [hnil])
        rw [if_neg (by simp [hp, hqe])]
        exact ⟨rfl, by simp, rfl⟩
      · rw [if_neg ht]
        exact ⟨h1, h2, h3⟩
  | followupFire =>
      simp only [step]
      split
      · exact inv_procBatch _ ⟨h1, h2, h3⟩
      · exact ⟨h1, h2, h3⟩
  | callProcessBatch => exact inv_procBatch s ⟨h1, h2, h3⟩
  | syncDone ok =>
      simp only [step]
      cases hph : s.phase with
      | idle => exact ⟨h1, h2, h3⟩
      | syncing batch =>
          have hp : s.processing = true := by
            rw [h3, hph]; rfl
          have hbt : s.batchTimer = false := by
            cases hb : s.batchTimer with
            | false => rfl
            | true => exact absurd hp (by simp [(h2 hb).2])
          have htl : s.timerLive = false := h1.symm.trans hbt
          cases ok with
          | true => exact inv_finishFlush s hbt htl
          | false => exact inv_enterRetry s batch 0 hp hbt htl
      | backoff batch n => exact ⟨h1, h2, h3⟩
      | retrySyncing batch n =>
          have hp : s.processing = true := by
            rw [h3, hph]; rfl
          have hbt : s.batchTimer = false := by
            cases hb : s.batchTimer with
            | false => rfl
            | true => exact absurd hp (by simp [(h2 hb).2])
          have htl : s.timerLive = false := h1.symm.trans hbt
          cases ok with
          | true => exact inv_finishFlush s hbt htl
          | false => exact inv_enterRetry s batch (n + 1) hp hbt htl
  | backoffDone =>
      simp only [step]
      cases hph : s.phase with
      | idle => exact ⟨h1, h2, h3⟩
      | syncing batch => exact ⟨h1, h2, h3⟩
      | backoff batch n =>
          have hp : s.processing = true := by
            rw [h3, hph]; rfl
          have hbt : s.batchTimer = false := by
            cases hb : s.batchTimer with
            | false => rfl
            | true => exact absurd hp (by simp [(h2 hb).2])
          have htl : s.timerLive = false := h1.symm.trans hbt
          exact ⟨by simp [hbt, htl], by simp [hbt], by simp [hp, Phase.isIdle]⟩
      | retrySyncing batch n => exact ⟨h1, h2, h3⟩

lemma inv_run_from (steps : List Step) :
    ∀ s : MState, Inv s → Inv (run s steps) := by
  induction steps with
  | nil => exact fun s h => h
  | cons e es ih =>
      intro s h
      exact ih (step s e) (inv_step s e h)

lemma inv_initState : Inv initState := by
  exact ⟨rfl, by simp [initState], rfl⟩

lemma inv_run (steps : List Step) : Inv (run initState steps) :=
  inv_run_from steps initState inv_initState

lemma find?_replace_self (m : List Attribute) (k : String) (v : JVal)
    (hany : m.any (fun a => a.key == k) = true) :
    (m.map (fun a => if a.key == k then ⟨k, v⟩ else a)).find?
      (fun a => a.key == k) = some ⟨k, v⟩ := by
  induction m with
  | nil => simp at hany
  | cons a m ih =>
      by_cases hk : (a.key == k) = true
      · rw [List.map_cons, if_pos hk]
        simp only [List.find?, beq_self_eq_true]
      · have hk0 : (a.key == k) = false := by simpa using hk
        rw [List.map_cons, if_neg hk]
        simp only [List.find?, hk0]
        simp only [List.any_cons, Bool.or_eq_true] at hany
        exact ih (hany.resolve_left hk)

lemma find?_replace_ne (m : List Attribute) (k : String) (v : JVal)
    (k' : String) (hne : k' ≠ k) :
    (m.map (fun a => if a.key == k then ⟨k, v⟩ else a)).find?
      (fun a => a.key == k') = m.find? (fun a => a.key == k') := by
  induction m with
  | nil => simp
  | cons a m ih =>
      by_cases hk : (a.key == k) = true
      · have hak : a.key = k := by simpa using hk
        have h1 : (k == k') = false := by simp [Ne.symm hne]
        have h2 : (a.key == k') = false := by simp [hak, Ne.symm hne]
        rw [List.map_cons, if_pos hk]
        simp only [List.find?, h1, h2]
        exact ih
      · rw [List.map_cons, if_neg hk]
        cases hk' : (a.key == k') with
        | true => simp only [List.find?, hk']
        | false =>
            simp only [List.find?, hk']
            exact ih

lemma find?_append_single_self (m : List Attribute) (k : String) (v : JVal)
    (hany : ¬ m.any (fun a => a.key == k) = true) :
    (m ++ [(⟨k, v⟩ : Attribute)]).find? (fun a => a.key == k) =
      some ⟨k, v⟩ := by
  induction m with
  | nil =>
      rw [List.nil_append]
      simp only [List.find?, beq_self_eq_true]
  | cons a m ih =>
      simp only [List.any_cons, Bool.or_eq_true, not_or] at hany
      have h1 : (a.key == k) = false := by simpa using hany.1
      rw [List.cons_append]
      simp only [List.find?, h1]
      exact ih (by simpa using hany.2)

lemma find?_append_single_ne (m : List Attribute) (k : String) (v : JVal)
    (k' : String) (hne : k' ≠ k) :
    (m ++ [(⟨k, v⟩ : Attribute)]).find? (fun a => a.key == k') =
      m.find? (fun a => a.key == k') := by
  induction m with
  | nil =>
      have h1 : (k == k') = false := by simp [Ne.symm hne]
      rw [List.nil_append]
      simp only [List.find?, h1]
  | cons a m ih =>
      cases hk' : (a.key == k') with
      | true =>
          rw [List.cons_append]
          simp only [List.find?, hk']
      | false =>
          rw [List.cons_append]
          simp only [List.find?, hk']
          exact ih

lemma findAttr_mapSet (m : List Attribute) (k : String) (v : JVal)
    (k' : String) :
    findAttr (mapSet m k v) k' =
      if k' = k then some v else findAttr m k' := by
  unfold mapSet findAttr
  by_cases hke : k' = k
  · subst hke
    rw [if_pos rfl]
    split
    · rename_i hany
      rw [find?_replace_self m k' v hany]
      rfl
    · rename_i hany
      rw [find?_append_single_self m k' v hany]
      rfl
  · rw [if_neg hke]
    split
    · rw [find?_replace_ne m k v k' hke]
    · rw [find?_append_single_ne m k v k' hke]

lemma findAttr_insertEntry (m : List Attribute) (e : String × JVal)
    (k : String) :
    findAttr (insertEntry m e) k =
      if (e.1 == k && kept e.2) = true then some (convertVal e.2)
      else findAttr m k := by
  unfold insertEntry
  by_cases hkept : kept e.2 = true
  · rw [if_pos hkept, findAttr_mapSet]
    by_cases hke : k = e.1
    · simp [hke, hkept]
    · simp [hke, Ne.symm hke]
  · simp [hkept]

lemma findAttr_fold (entries : List (String × JVal)) :
    ∀ (m : List Attribute) (k : String),
      findAttr (entries.foldl insertEntry m) k =
        match (entries.filter (fun e => e.1 == k && kept e.2)).getLast? with
        | some e => some (convertVal e.2)
        | none => findAttr m k := by
  induction entries with
  | nil => intro m k; simp
  | cons e es ih =>
      intro m k
      rw [List.foldl_cons, ih]
      by_cases hc : (e.1 == k && kept e.2) = true
      · simp only [List.filter_cons, hc, if_true]
        cases hl : (es.filter (fun e => e.1 == k && kept e.2)) with
        | nil =>
            simp only [List.getLast?_nil, List.getLast?_singleton]
            rw [findAttr_insertEntry, if_pos hc]
        | cons e' l' =>
            rw [List.getLast?_cons_cons, List.getLast?_cons]
      · have hc0 : (e.1 == k && kept e.2) = false := by simpa using hc
        simp only [List.filter_cons, hc0, Bool.false_eq_true, if_false]
        cases hl : (es.filter (fun e => e.1 == k && kept e.2)).getLast? with
        | none =>
            dsimp only
            rw [findAttr_insertEntry, if_neg (by simp_all)]
        | some e' => rfl

/-- The attribute-lookup characterisation of `toAttributes`: the stored
value at a key is the converted value of the last skip-surviving supplied
entry with that key (and no attribute exists for keys never supplied). -/
lemma findAttr_toAttributes (entries : List (String × JVal)) (k : String) :
    findAttr (toAttributes entries) k =
      ((entries.filter (fun e => e.1 == k && kept e.2)).getLast?).map
        (fun e => convertVal e.2) := by
  rw [toAttributes, findAttr_fold]
  cases (entries.filter (fun e => e.1 == k && kept e.2)).getLast? with
  | none => simp [findAttr]
  | some e => simp

lemma keys_mapSet (m : List Attribute) (k : String) (v : JVal) :
    (mapSet m k v).map Attribute.key =
      if m.any (fun a => a.key == k) = true then m.map Attribute.key
      else m.map Attribute.key ++ [k] := by
  unfold mapSet
  split
  · rw [List.map_map]
    refine List.map_congr_left ?_
    intro a _
    by_cases hk : (a.key == k) = true
    · simp only [Function.comp, if_pos hk]
      exact (by simpa using hk : a.key = k).symm
    · simp only [Function.comp, if_neg hk]
  · simp

lemma nodup_keys_insertEntry (m : List Attribute) (e : String × JVal)
    (h : (m.map Attribute.key).Nodup) :
    ((insertEntry m e).map Attribute.key).Nodup := by
  unfold insertEntry
  split
  · rw [keys_mapSet]
    split
    · exact h
    · rename_i hany
      rw [List.nodup_append]
      refine ⟨h, List.nodup_singleton _, ?_⟩
      intro x hx hx'
      simp only [List.mem_singleton] at hx'
      subst hx'
      simp only [List.mem_map] at hx
      obtain ⟨a, ha, hak⟩ := hx
      exact hany (List.any_eq_true.mpr ⟨a, ha, by simp [hak]⟩)
  · exact h

lemma nodup_keys_fold (entries : List (String × JVal)) :
    ∀ m : List Attribute, (m.map Attribute.key).Nodup →
      ((entries.foldl insertEntry m).map Attribute.key).Nodup := by
  induction entries with
  | nil => exact fun m h => h
  | cons e es ih =>
      intro m h
      exact ih _ (nodup_keys_insertEntry m e h)

lemma procBatch_eq_self (s : MState)
    (h : s.processing = true ∨ s.queue = []) : procBatch s = s := by
  rcases h with h | h
  · simp [procBatch, h]
  · simp [procBatch, h]

lemma procBatch_dispatches (s : MState) (hp : s.processing = false)
    (hq : s.queue ≠ []) :
    procBatch s =
      { s with processing := true
             , batchTimer := false
             , timerLive := false
             , queue := s.queue.drop BATCH_SIZE
             , phase := .syncing (s.queue.take BATCH_SIZE)
             , dispatched := s.dispatched ++ [s.queue.take BATCH_SIZE] } := by
  simp [procBatch, hp, List.isEmpty_iff, hq]

lemma findAttr_isSome_of_mem (entries : List (String × JVal)) (k : String)
    (v : JVal) (hmem : (k, v) ∈ entries) (hk : kept v = true) :
    (findAttr (toAttributes entries) k).isSome := by
  rw [findAttr_toAttributes]
  have hmf : (k, v) ∈ entries.filter (fun e => e.1 == k && kept e.2) :=
    List.mem_filter.mpr ⟨hmem, by simp [hk]⟩
  have hne := List.ne_nil_of_mem hmf
  cases hl : (entries.filter (fun e => e.1 == k && kept e.2)).getLast? with
  | none => exact absurd (List.getLast?_eq_none_iff.mp hl) hne
  | some e => simp

lemma hasMandatory_buildCreate (env : DateEnv) (t : Int) (len : Nat)
    (item : Item) (ht : kept item.type = true) :
    hasMandatory (buildCreate env t len item) := by
  refine ⟨?_, ?_, ?_, ?_⟩
  · exact findAttr_isSome_of_mem _ "type" item.type (by simp [buildCreate]) ht
  · exact findAttr_isSome_of_mem _ "source" (.str "umami")
      (by simp [buildCreate]) rfl
  · exact findAttr_isSome_of_mem _ "timestamp"
      (.str (formatTimestamp env item.timestamp)) (by simp [buildCreate]) rfl
  · exact findAttr_isSome_of_mem _ "sync_time" (.num t)
      (by simp [buildCreate]) rfl

/-- Claim C1: enqueueing exactly `BATCH_SIZE` (10) items into a queue
that starts empty and not processing dispatches exactly one immediate
flush whose batch is exactly those ten items, cancels the pending batch
timer (no scheduled flush handle of any kind remains), and leaves the
queue empty with that single flush in flight. -/
theorem c1_full_batch_single_flush (items : List Item)
    (h : items.length = BATCH_SIZE) :
    ((items.foldl addStep initState).dispatched = [items]) ∧
    (items.foldl addStep initState).batchTimer = false ∧
    (items.foldl addStep initState).timerLive = false ∧
    (items.foldl addStep initState).followup = 0 ∧
    (items.foldl addStep initState).queue = [] ∧
    (items.foldl addStep initState).phase = .syncing items := by
  rw [BATCH_SIZE] at h
  rcases items with _ | ⟨a1, _ | ⟨a2, _ | ⟨a3, _ | ⟨a4, _ | ⟨a5, _ | ⟨a6,
    _ | ⟨a7, _ | ⟨a8, _ | ⟨a9, _ | ⟨a10, rest⟩⟩⟩⟩⟩⟩⟩⟩⟩⟩ <;>
    simp only [List.length_cons, List.length_nil] at h <;> try omega
  have hrest : rest = [] := by
    have : rest.length = 0 := by omega
    exact List.length_eq_zero.mp this
  subst hrest
  simp [List.foldl_cons, List.foldl_nil, addStep, startTimer, sizeCheck,
    procBatch, clearBatchTimer, initState, BATCH_SIZE, List.isEmpty]

/-- Witness for C1: ten concrete enqueues produce one flush of those ten
items with no timer left. -/
theorem c1_full_batch_single_flush_w :
    ((List.replicate 10 itemA).foldl addStep initState).dispatched =
        [List.replicate 10 itemA] ∧
    ((List.replicate 10 itemA).foldl addStep initState).batchTimer = false ∧
    ((List.replicate 10 itemA).foldl addStep initState).timerLive = false ∧
    ((List.replicate 10 itemA).foldl addStep initState).followup = 0 ∧
    ((List.replicate 10 itemA).foldl addStep initState).queue = [] ∧
    ((List.replicate 10 itemA).foldl addStep initState).phase =
      .syncing (List.replicate 10 itemA) :=
  c1_full_batch_single_flush (List.replicate 10 itemA) (by decide)

/-- Claim C2: at most one flush (including its retry chain) is in flight
per queue instance.  While the `processing` flag is set, an `add` call
leaves the in-flight flush and the dispatch history untouched and merely
appends the item to the pending queue, a direct `processBatch` call is a
no-op, and in every reachable state the `processing` flag holds exactly
when a flush continuation is in flight. -/
theorem c2_single_flight :
    (∀ (s : MState) (i : Item), s.processing = true →
       (addStep s i).phase = s.phase ∧
       (addStep s i).dispatched = s.dispatched ∧
       (addStep s i).queue = s.queue ++ [i] ∧
       (addStep s i).processing = true) ∧
    (∀ s : MState, s.processing = true → procBatch s = s) ∧
    (∀ steps : List Step,
       (run initState steps).processing =
         !(run initState steps).phase.isIdle) := by
  refine ⟨?_, ?_, ?_⟩
  · intro s i h
    simp only [addStep, startTimer, sizeCheck, h, Bool.not_true,
      Bool.and_false, Bool.false_eq_true, if_false]
    split <;> simp [procBatch, clearBatchTimer, h]
  · intro s h
    simp [procBatch, h]
  · intro steps
    exact (inv_run steps).2.2

/-- Witness for C2: with a flush in flight, an enqueue only appends to
the pending queue and a `processBatch` call changes nothing. -/
theorem c2_single_flight_w :
    ((addStep procState itemA).queue = procState.queue ++ [itemA]) ∧
    procBatch procState = procState :=
  ⟨(c2_single_flight.1 procState itemA rfl).2.2.1,
   c2_single_flight.2.1 procState rfl⟩

/-- Claim C3: a batch failing on every attempt is retried exactly
`MAX_RETRIES` (3) times with exponential backoff delays
`RETRY_DELAY * 2 ^ n` (ratio 1:2:4) before the retries, after which the
chain ends dropped; no oracle can make the chain exceed three
re-attempts. -/
theorem c3_retry_backoff :
    retryTrace (fun _ => false) 0 =
      ([RETRY_DELAY * 2 ^ 0, RETRY_DELAY * 2 ^ 1, RETRY_DELAY * 2 ^ 2],
        false) ∧
    (retryTrace (fun _ => false) 0).1.length = MAX_RETRIES ∧
    (∀ (f : Nat → Bool) (n : Nat),
        (retryTrace f n).1.length ≤ MAX_RETRIES - n) := by
  have key : ∀ (fuel n : Nat) (f : Nat → Bool), MAX_RETRIES - n ≤ fuel →
      (retryTrace f n).1.length ≤ MAX_RETRIES - n := by
    intro fuel
    induction fuel with
    | zero =>
        intro n f hle
        rw [retryTrace]
        have h3 : MAX_RETRIES ≤ n := by omega
        rw [if_pos h3]
        simp
    | succ fuel ih =>
        intro n f hle
        rw [retryTrace]
        by_cases h3 : MAX_RETRIES ≤ n
        · rw [if_pos h3]; simp
        · rw [if_neg h3]
          by_cases hf : f n = true
          · rw [if_pos hf]
            simp only [List.length_cons, List.length_nil]
            omega
          · rw [if_neg hf]
            simp only [List.length_cons]
            have := ih (n + 1) f (by simp [MAX_RETRIES] at *; omega)
            simp [MAX_RETRIES] at *
            omega
  refine ⟨?_, ?_, fun f n => key (MAX_RETRIES - n) n f le_rfl⟩
  · rw [retryTrace]
    simp [MAX_RETRIES, RETRY_DELAY]
    rw [retryTrace]
    simp [MAX_RETRIES, RETRY_DELAY]
    rw [retryTrace]
    simp [MAX_RETRIES, RETRY_DELAY]
    rw [retryTrace]
    simp [MAX_RETRIES, RETRY_DELAY]
  · rw [retryTrace]
    simp [MAX_RETRIES, RETRY_DELAY]
    rw [retryTrace]
    simp [MAX_RETRIES, RETRY_DELAY]
    rw [retryTrace]
    simp [MAX_RETRIES, RETRY_DELAY]
    rw [retryTrace]
    simp [MAX_RETRIES, RETRY_DELAY]

/-- Claim C4: a ledger write call that returns without raising but
acknowledges a different number of entities than submitted makes
`syncBatchToArkiv` fail with the receipt-mismatch error, and a failed
flush routes the entire original batch (not a subset) into the retry
chain at count 0. -/
theorem c4_ack_mismatch_retries :
    (∀ (env : DateEnv) (t : Int)
       (client : List Create → Except SyncError (List Nat))
       (batch : List Item) (acks : List Nat),
       client (batch.map (buildCreate env t batch.length)) = .ok acks →
       acks.length ≠ batch.length →
       syncBatchToArkiv env t client batch =
         .error (.receiptMismatch batch.length acks.length)) ∧
    (∀ (s : MState) (batch : List Item), s.phase = .syncing batch →
       (step s (.syncDone false)).phase = .backoff batch 0) := by
  constructor
  · intro env t client batch acks hcl hne
    simp only [syncBatchToArkiv]
    rw [hcl]
    dsimp only
    rw [if_neg (by simp [hne])]
    simp
  · intro s batch hph
    simp only [step, hph, enterRetry]
    split
    · rename_i h0
      simp [MAX_RETRIES] at h0
    · rfl

/-- Witness for C4: a client acknowledging zero of one submitted entity
makes the write fail, and the failed flush hands the whole one-item batch
to the retry chain. -/
theorem c4_ack_mismatch_retries_w :
    (syncBatchToArkiv dateEnvEx 0 (fun _ => Except.ok []) [itemA] =
      .error (.receiptMismatch 1 0)) ∧
    (step syncingState (.syncDone false)).phase = .backoff [itemA] 0 :=
  ⟨c4_ack_mismatch_retries.1 dateEnvEx 0 (fun _ => Except.ok []) [itemA] []
     rfl (by decide),
   c4_ack_mismatch_retries.2 syncingState [itemA] rfl⟩

/-- Claim C5 counterexample: for the specification's pageview scenario
(site S1, source id 42, timestamp 2024-01-01T00:00:00Z) the entity's
`timestamp` annotation is NOT the claimed string
"2024-01-01T00:00:00Z" — `formatTimestamp` re-renders the instant with
`toISOString`, which always emits milliseconds, yielding
"2024-01-01T00:00:00.000Z". -/
theorem c5_annotation_cex :
    findAttr (buildCreate dateEnvEx 1700000000 1
        (syncPageviewItem dateEnvEx evS1)).attributes "timestamp" ≠
      some (.str "2024-01-01T00:00:00Z") := by
  have h : findAttr (buildCreate dateEnvEx 1700000000 1
      (syncPageviewItem dateEnvEx evS1)).attributes "timestamp" =
      some (.str "2024-01-01T00:00:00.000Z") := rfl
  rw [h]
  intro hcontra
  have hs := JVal.str.inj (Option.some.inj hcontra)
  exact absurd hs (by decide)

/-- Claim C5 (amended): every entity built for a normaliser-produced
SyncItem carries the `type`, `source`, `timestamp` and `sync_time`
annotations; and for the pageview scenario with site S1, source id 42 and
timestamp 2024-01-01T00:00:00Z the annotations are type="pageview",
source="umami", website_id="S1", umami_id="42",
timestamp="2024-01-01T00:00:00.000Z" (the input instant in toISOString's
millisecond rendering), and a numeric sync_time. -/
theorem c5_annotation_amended :
    (∀ (env : DateEnv) (t : Int) (len : Nat) (ev : WebsiteEvent),
        hasMandatory (buildCreate env t len (syncPageviewItem env ev)) ∧
        hasMandatory (buildCreate env t len (syncCustomEventItem env ev))) ∧
    (∀ (env : DateEnv) (t : Int) (len : Nat) (sess : SessionRow),
        hasMandatory (buildCreate env t len (syncSessionItem env sess))) ∧
    (∀ t : Int,
        findAttr (buildCreate dateEnvEx t 1
            (syncPageviewItem dateEnvEx evS1)).attributes "type" =
          some (.str "pageview") ∧
        findAttr (buildCreate dateEnvEx t 1
            (syncPageviewItem dateEnvEx evS1)).attributes "source" =
          some (.str "umami") ∧
        findAttr (buildCreate dateEnvEx t 1
            (syncPageviewItem dateEnvEx evS1)).attributes "website_id" =
          some (.str "S1") ∧
        findAttr (buildCreate dateEnvEx t 1
            (syncPageviewItem dateEnvEx evS1)).attributes "umami_id" =
          some (.str "42") ∧
        findAttr (buildCreate dateEnvEx t 1
            (syncPageviewItem dateEnvEx evS1)).attributes "timestamp" =
          some (.str "2024-01-01T00:00:00.000Z") ∧
        findAttr (buildCreate dateEnvEx t 1
            (syncPageviewItem dateEnvEx evS1)).attributes "sync_time" =
          some (.num t)) := by
  refine ⟨?_, ?_, ?_⟩
  · intro env t len ev
    exact ⟨hasMandatory_buildCreate env t len _ rfl,
           hasMandatory_buildCreate env t len _ rfl⟩
  · intro env t len sess
    exact hasMandatory_buildCreate env t len _ rfl
  · intro t
    exact ⟨rfl, rfl, rfl, rfl, rfl, rfl⟩

/-- Claim C6 counterexample: the universal claim fails once pending
exceeds `BATCH_SIZE`.  On an idle queue with eleven items pending, the
termination handler's single `processBatch` call splices off only the
first ten, so the one final flush does not contain whatever remains in
pending: one item is still queued (behind a follow-up timeout the exiting
process never awaits). -/
theorem c6_shutdown_cex :
    elevenState.processing = false ∧
    elevenState.queue.length = 11 ∧
    (sigintFlush elevenState).dispatched.map List.length = [BATCH_SIZE] ∧
    (sigintFlush elevenState).queue.length = 1 := by
  refine ⟨rfl, by decide, by decide, by decide⟩

/-- Claim C6 (amended): for every queue state with non-empty pending and
no flush in flight, the termination signal triggers exactly one final
flush containing the first `BATCH_SIZE` pending items in FIFO order,
leaving the rest queued; when pending holds at most `BATCH_SIZE` items
(in particular the three-item scenario), that single flush contains
exactly the whole pending queue and empties it. -/
theorem c6_shutdown_drains_amended (s : MState) (hp : s.processing = false)
    (hq : s.queue ≠ []) :
    (sigintFlush s).dispatched = s.dispatched ++ [s.queue.take BATCH_SIZE] ∧
    (sigintFlush s).queue = s.queue.drop BATCH_SIZE ∧
    (sigintFlush s).phase = .syncing (s.queue.take BATCH_SIZE) ∧
    (s.queue.length ≤ BATCH_SIZE →
      (sigintFlush s).dispatched = s.dispatched ++ [s.queue] ∧
      (sigintFlush s).queue = []) := by
  have h0 : 0 < s.queue.length := List.length_pos.mpr hq
  unfold sigintFlush
  rw [if_pos h0]
  rw [procBatch_dispatches s hp hq]
  refine ⟨rfl, rfl, rfl, ?_⟩
  intro hle
  constructor
  · rw [List.take_of_length_le hle]
  · rw [List.drop_eq_nil_of_le hle]

/-- Witness for C6 (amended): a concrete idle queue with three pending
items is drained by exactly one flush of those three items. -/
theorem c6_shutdown_drains_amended_w :
    (sigintFlush threeState).dispatched =
        threeState.dispatched ++ [threeState.queue] ∧
    (sigintFlush threeState).queue = [] :=
  (c6_shutdown_drains_amended threeState rfl
    (List.cons_ne_nil _ _)).2.2.2 (by decide)

/-- Claim C7 counterexample: the claimed biconditional timer invariant
fails at a reachable state — after a flush completes with an item still
pending, the follow-up flush lives in an untracked timeout and the timer
field stays unset; moreover one more enqueue in that window schedules a
batch timer next to the pending follow-up, so two flush callbacks are
scheduled at once. -/
theorem c7_timer_invariant_cex :
    ¬ timerInvariantClaim (run initState cexSteps1) ∧
    scheduledFlushes (run initState cexSteps2) = 2 := by
  constructor
  · show ¬ ((run initState cexSteps1).batchTimer = true ↔
      ((run initState cexSteps1).queue.length ≠ 0 ∧
        (run initState cexSteps1).processing = false))
    decide
  · decide

/-- Claim C7 (amended): in every reachable state of a queue instance, a
set scheduled-flush timer implies the pending queue is non-empty and no
flush is in flight.  (The converse direction of the claimed invariant is
false: after an in-flight flush completes with items pending, the next
flush is scheduled through an untracked timeout, and a later enqueue can
put a second scheduled flush callback next to it.) -/
theorem c7_timer_invariant_amended (steps : List Step) :
    (run initState steps).batchTimer = true →
    (run initState steps).queue.length ≠ 0 ∧
      (run initState steps).processing = false :=
  fun h => (inv_run steps).2.1 h

/-- Witness for C7 (amended): after a single enqueue the timer is set,
and indeed the queue is non-empty with no flush in flight. -/
theorem c7_timer_invariant_amended_w :
    (run initState [Step.add itemA]).queue.length ≠ 0 ∧
    (run initState [Step.add itemA]).processing = false :=
  c7_timer_invariant_amended [Step.add itemA] (by decide)

/-- Claim C8: `processBatch` is a no-op when a flush is already in flight
or the queue is empty; otherwise it atomically removes the first
`BATCH_SIZE` items (the FIFO front) from the pending queue, marks the
flush in flight, clears the timer, and hands exactly those items to the
sink write. -/
theorem c8_processBatch_fifo (s : MState) :
    (s.processing = true ∨ s.queue = [] → procBatch s = s) ∧
    (s.processing = false → s.queue ≠ [] →
       procBatch s =
         { s with processing := true
                , batchTimer := false
                , timerLive := false
                , queue := s.queue.drop BATCH_SIZE
                , phase := .syncing (s.queue.take BATCH_SIZE)
                , dispatched := s.dispatched ++
                    [s.queue.take BATCH_SIZE] }) :=
  ⟨procBatch_eq_self s, procBatch_dispatches s⟩

/-- Witness for C8: on an idle one-item queue, `processBatch` dispatches
exactly that item and empties the queue. -/
theorem c8_processBatch_fifo_w :
    procBatch queuedState =
      { queuedState with
          processing := true
        , batchTimer := false
        , timerLive := false
        , queue := queuedState.queue.drop BATCH_SIZE
        , phase := .syncing (queuedState.queue.take BATCH_SIZE)
        , dispatched := queuedState.dispatched ++
            [queuedState.queue.take BATCH_SIZE] } :=
  (c8_processBatch_fifo queuedState).2 rfl (List.cons_ne_nil _ _)

/-- Claim C9: within one constructed entity the annotation keys are
unique, and the stored value at a key is the conversion of the
last-supplied surviving entry with that key (last-write-wins). -/
theorem c9_keys_unique_last_wins (entries : List (String × JVal))
    (k : String) :
    ((toAttributes entries).map Attribute.key).Nodup ∧
    findAttr (toAttributes entries) k =
      ((entries.filter (fun e => e.1 == k && kept e.2)).getLast?).map
        (fun e => convertVal e.2) :=
  ⟨nodup_keys_fold entries [] (by simp), findAttr_toAttributes entries k⟩

/-- Claim C10: `formatTimestamp` is total and always returns a string in
the ISO-8601 rendering produced by `toISOString`; absent (falsy) or
unparseable input silently falls back to the current wall-clock time
instead of erroring. -/
theorem c10_formatTimestamp_total (env : DateEnv) (v : JVal)
    (hparse : ∀ (u : JVal) (s : String), env.parse u = some s →
      isIsoMillis s = true)
    (hnow : isIsoMillis env.nowIso = true) :
    isIsoMillis (formatTimestamp env v) = true ∧
    ((jsFalsy v = true ∨ env.parse v = none) →
      formatTimestamp env v = env.nowIso) := by
  unfold formatTimestamp
  by_cases hf : jsFalsy v = true
  · rw [if_pos hf]
    exact ⟨hnow, fun _ => rfl⟩
  · rw [if_neg hf]
    cases hp : env.parse v with
    | none => exact ⟨hnow, fun _ => rfl⟩
    | some iso =>
        refine ⟨hparse v iso hp, ?_⟩
        intro hor
        rcases hor with h | h
        · exact absurd h hf
        · exact Option.noConfusion h

/-- Witness for C10: with a parse step accepting nothing, an unparseable
string still yields the (ISO-shaped) current time. -/
theorem c10_formatTimestamp_total_w :
    isIsoMillis (formatTimestamp envNoParse (.str "not-a-date")) = true ∧
    ((jsFalsy (JVal.str "not-a-date") = true ∨
        envNoParse.parse (.str "not-a-date") = none) →
      formatTimestamp envNoParse (.str "not-a-date") = envNoParse.nowIso) :=
  c10_formatTimestamp_total envNoParse (.str "not-a-date")
    (fun u s h => Option.noConfusion h) (by decide)

end UmamiSync
